import Mathlib

/-!
# Verification of the domolux-admin bulk CSV product-import pipeline

Shallow embedding of the import pipeline of the `domolux-admin` repository:

* `src/app/api/admin/import/route.ts` — `processProductImport` (row mapper +
  single-record importer) and the `POST` handler (execution-mode selector and
  synchronous batch runner);
* `src/utils/api.ts` — the second copy of `processProductImport` and the
  BullMQ `importWorker` (asynchronous batch runner with progress updates);
* the job-status `GET` endpoint (`src/unnamed/part_000`, lines 295-385).

Modelling conventions:

* JS objects `CSVRow` / `FieldMappings` become association lists
  `List (String × String)`; `row[k]` is first-match lookup, `undefined`
  becomes `Option.none`, and JS string falsiness (`!s`) is `s = ""`.
* JS numbers touched by the pipeline (`parseFloat` results) are modelled as
  `Option ℚ`; binary-float rounding is not modelled — no claim inspects a
  numeric magnitude beyond nullness.  `parseFloat(v) || null` maps a parse
  failure *and* a parsed zero to `none`, exactly as in JS.
* The external catalog API (`axios.post` to Strapi) is an oracle
  `ProductData → CatalogResponse` giving, for the submitted payload, either a
  created id or the pair of optional messages the `catch` block inspects.
* The BullMQ collaborator is external to the repository; the observable job
  handle (state / progress / returnvalue) is modelled from the spec's
  background-job collaborator contract where noted.
* `String.toLower`/`String.toUpper` model JS `toLowerCase`/`toUpperCase`;
  both agree on ASCII, which is all the claims exercise.
-/

/-- A parsed CSV row: column name → string value (JS object as assoc list). -/
abbrev RawRow := List (String × String)

/-- The user-supplied column→field mapping (JS object as assoc list,
in `Object.keys` iteration order). -/
abbrev FieldMappings := List (String × String)

/-- `row[k]` on a JS object: first binding wins, missing key is `none`. -/
def lookupRow (row : RawRow) (k : String) : Option String :=
  (row.find? (fun p => p.1 == k)).map (fun p => p.2)

/-! String primitives used by the pipeline, as structural recursion over the
character list (so that concrete runs reduce inside proofs).  They model the
JS `trim` / `toLowerCase` / `toUpperCase` / `split` used by the source. -/

/-- JS `String.prototype.trim`: strip leading and trailing whitespace. -/
def trimStr (s : String) : String :=
  String.mk (((s.data.dropWhile Char.isWhitespace).reverse.dropWhile
    Char.isWhitespace).reverse)

/-- JS `toLowerCase` (ASCII range; agrees with JS on all claim inputs). -/
def toLowerStr (s : String) : String :=
  String.mk (s.data.map Char.toLower)

/-- JS `toUpperCase` (ASCII range). -/
def toUpperStr (s : String) : String :=
  String.mk (s.data.map Char.toUpper)

/-- JS `split(sep)` for a one-character separator: `""` yields `[""]`,
adjacent separators yield empty segments. -/
def splitOnChar (sep : Char) : List Char → List (List Char)
  | [] => [[]]
  | c :: rest =>
    let r := splitOnChar sep rest
    if c = sep then [] :: r
    else (c :: r.headD []) :: r.tail

/-- JS `value.split(sep)` on strings. -/
def splitOnStr (sep : Char) (s : String) : List String :=
  (splitOnChar sep s.data).map String.mk

/-- JS `a || b` for an optional string `a` (absent and `""` are falsy). -/
def jsOrStr (a : Option String) (b : String) : String :=
  match a with
  | some s => if s = "" then b else s
  | none => b

/-- One `finishes` entry: `{ name, colorHex }`. -/
structure Finish where
  name : String
  colorHex : String
deriving Repr, DecidableEq

/-- The nested `dimensions` object of the product payload. -/
structure Dimensions where
  width : Option ℚ
  depth : Option ℚ
  height : Option ℚ
  unit : String
deriving Repr, DecidableEq

/-- The `productData` payload built by `processProductImport` and submitted
to the catalog API. -/
structure ProductData where
  name : String
  sku : String
  slug : String
  shortDesc : String
  longDesc : String
  price : Option ℚ
  currency : String
  category : String
  tags : List String
  dimensions : Dimensions
  finishes : List Finish
  availability : String
  hotel_grade : Bool
deriving Repr, DecidableEq

/-- The initial `productData` literal (route.ts lines 49-68 / api.ts 59-78):
every field at its default before the mapping loop runs. -/
def initialProductData : ProductData :=
  { name := ""
    sku := ""
    slug := ""
    shortDesc := ""
    longDesc := ""
    price := none
    currency := "EUR"
    category := "Chair"
    tags := []
    dimensions := { width := none, depth := none, height := none, unit := "cm" }
    finishes := []
    availability := "In Stock"
    hotel_grade := false }

/-- Digit run → value, `"123"` ↦ `123`. -/
def digitsVal (cs : List Char) : Nat :=
  cs.foldl (fun a c => a * 10 + (c.toNat - Char.toNat '0')) 0

/-- Optionally signed digit run after `e`/`E`; JS ignores a malformed
exponent part (`parseFloat("1e-") = 1`), hence `0` when no digits follow. -/
def parseSignedDigits (cs : List Char) : ℤ :=
  match cs with
  | '-' :: ds =>
    let d := ds.takeWhile Char.isDigit
    if d.isEmpty then 0 else -(digitsVal d : ℤ)
  | '+' :: ds =>
    let d := ds.takeWhile Char.isDigit
    if d.isEmpty then 0 else (digitsVal d : ℤ)
  | ds =>
    let d := ds.takeWhile Char.isDigit
    if d.isEmpty then 0 else (digitsVal d : ℤ)

/-- Model of JS `parseFloat`: skip leading whitespace, optional sign, longest
numeric prefix `digits [. digits] [e|E [sign] digits]`; `none` when no digit
is found (JS `NaN`).  `Infinity` literals and binary-float rounding are not
modelled — no claim depends on them. -/
def jsParseFloat (s : String) : Option ℚ :=
  let cs0 := s.data.dropWhile Char.isWhitespace
  let sgn : ℚ := match cs0 with
    | '-' :: _ => -1
    | _ => 1
  let cs1 : List Char := match cs0 with
    | '-' :: rest => rest
    | '+' :: rest => rest
    | _ => cs0
  let ip := cs1.takeWhile Char.isDigit
  let cs2 := cs1.dropWhile Char.isDigit
  let fp : List Char := match cs2 with
    | '.' :: rest => rest.takeWhile Char.isDigit
    | _ => []
  let cs3 : List Char := match cs2 with
    | '.' :: rest => rest.dropWhile Char.isDigit
    | _ => cs2
  if ip.isEmpty ∧ fp.isEmpty then none
  else
    let base : ℚ := (digitsVal ip : ℚ) + (digitsVal fp : ℚ) / ((10 : ℚ) ^ fp.length)
    let expo : ℤ := match cs3 with
      | 'e' :: rest => parseSignedDigits rest
      | 'E' :: rest => parseSignedDigits rest
      | _ => 0
    some (sgn * base * (10 : ℚ) ^ expo)

/-- JS `parseFloat(value) || null`: parse failure (`NaN`) **and** a parsed
`0` are both falsy, hence `null`. -/
def parseFloatOrNull (s : String) : Option ℚ :=
  match jsParseFloat s with
  | none => none
  | some q => if q = 0 then none else some q

/-- One `finishes` segment (route.ts lines 118-124): trim, split on `:`;
`parts[0] || f.trim()` and `parts[1] || '#000000'`. -/
def parseFinish (f : String) : Finish :=
  let ft := trimStr f
  let parts := splitOnStr ':' ft
  { name := jsOrStr (some (parts.headD "")) ft
    colorHex := jsOrStr (some (parts.getD 1 "")) "#000000" }

/-- Body of the `Object.keys(fieldMappings).forEach` loop of
`processProductImport` in `src/app/api/admin/import/route.ts` (lines 71-133):
apply one mapping entry `(csvColumn, productField)` to the accumulating
`productData`.  `if (!productField || !row[csvColumn]) return;` skips the
entry when the target field is falsy or the raw cell is missing/empty —
note the cell is tested *before* trimming. -/
def applyMappingRoute (row : RawRow) (pd : ProductData) (entry : String × String) :
    ProductData :=
  let productField := entry.2
  if productField = "" then pd
  else
    match lookupRow row entry.1 with
    | none => pd
    | some raw =>
      if raw = "" then pd
      else
        let value := trimStr raw
        match productField with
        | "name" => { pd with name := value }
        | "sku" => { pd with sku := value }
        | "slug" => { pd with slug := value }
        | "shortDesc" => { pd with shortDesc := value }
        | "longDesc" => { pd with longDesc := value }
        | "price" => { pd with price := parseFloatOrNull value }
        | "currency" => { pd with currency := toUpperStr value }
        | "category" => { pd with category := value }
        | "tags" =>
          { pd with tags := ((splitOnStr ',' value).map trimStr).filter (fun t => t ≠ "") }
        | "width" => { pd with dimensions := { pd.dimensions with width := parseFloatOrNull value } }
        | "depth" => { pd with dimensions := { pd.dimensions with depth := parseFloatOrNull value } }
        | "height" => { pd with dimensions := { pd.dimensions with height := parseFloatOrNull value } }
        | "unit" => { pd with dimensions := { pd.dimensions with unit := value } }
        | "finishes" => { pd with finishes := (splitOnStr ',' value).map parseFinish }
        | "availability" => { pd with availability := value }
        | "hotel_grade" =>
          { pd with hotel_grade := toLowerStr value = "true" ∨ toLowerStr value = "yes" }
        | _ => pd

/-- `[a-z0-9]` — the characters the slug regex `[^a-z0-9]+` does *not* match. -/
def isSlugChar (c : Char) : Bool :=
  ('a' ≤ c ∧ c ≤ 'z') ∨ ('0' ≤ c ∧ c ≤ '9')

/-- `.replace(/[^a-z0-9]+/g, '-')`: each maximal run of non-`[a-z0-9]`
characters becomes a single hyphen.  The flag records whether the previous
character belonged to a run already replaced. -/
def collapseRunsAux : List Char → Bool → List Char
  | [], _ => []
  | c :: cs, inRun =>
    if isSlugChar c then c :: collapseRunsAux cs false
    else if inRun then collapseRunsAux cs true
    else '-' :: collapseRunsAux cs true

/-- `.replace(/^-+|-+$/g, '')`: drop leading and trailing hyphens. -/
def trimHyphens (cs : List Char) : List Char :=
  (((cs.dropWhile (fun c => c == '-')).reverse.dropWhile (fun c => c == '-'))).reverse

/-- Slug auto-generation (route.ts lines 137-141):
`name.toLowerCase().trim().replace(/[^a-z0-9]+/g,'-').replace(/^-+|-+$/g,'')`. -/
def slugify (name : String) : String :=
  String.mk (trimHyphens (collapseRunsAux (trimStr (toLowerStr name)).data false))

/-- The row-mapping stage of `processProductImport` in
`src/app/api/admin/import/route.ts` (lines 49-142): fold the mapping entries
over the default payload, then auto-generate the slug if it is still empty
and the name is non-empty. -/
def mapRowToProductRoute (row : RawRow) (fieldMappings : FieldMappings) : ProductData :=
  let pd := fieldMappings.foldl (applyMappingRoute row) initialProductData
  if pd.slug = "" ∧ pd.name ≠ "" then { pd with slug := slugify pd.name } else pd

/-- Body of the mapping loop of `processProductImport` in `src/utils/api.ts`
(lines 81-143) — translated independently from that file; the claims compare
it with `applyMappingRoute`. -/
def applyMappingUtils (row : RawRow) (pd : ProductData) (entry : String × String) :
    ProductData :=
  let productField := entry.2
  if productField = "" then pd
  else
    match lookupRow row entry.1 with
    | none => pd
    | some raw =>
      if raw = "" then pd
      else
        let value := trimStr raw
        match productField with
        | "name" => { pd with name := value }
        | "sku" => { pd with sku := value }
        | "slug" => { pd with slug := value }
        | "shortDesc" => { pd with shortDesc := value }
        | "longDesc" => { pd with longDesc := value }
        | "price" => { pd with price := parseFloatOrNull value }
        | "currency" => { pd with currency := toUpperStr value }
        | "category" => { pd with category := value }
        | "tags" =>
          { pd with tags := ((splitOnStr ',' value).map trimStr).filter (fun t => t ≠ "") }
        | "width" => { pd with dimensions := { pd.dimensions with width := parseFloatOrNull value } }
        | "depth" => { pd with dimensions := { pd.dimensions with depth := parseFloatOrNull value } }
        | "height" => { pd with dimensions := { pd.dimensions with height := parseFloatOrNull value } }
        | "unit" => { pd with dimensions := { pd.dimensions with unit := value } }
        | "finishes" => { pd with finishes := (splitOnStr ',' value).map parseFinish }
        | "availability" => { pd with availability := value }
        | "hotel_grade" =>
          { pd with hotel_grade := toLowerStr value = "true" ∨ toLowerStr value = "yes" }
        | _ => pd

/-- The row-mapping stage of `processProductImport` in `src/utils/api.ts`
(lines 59-152): same structure as the route copy, translated from its own
source text. -/
def mapRowToProductUtils (row : RawRow) (fieldMappings : FieldMappings) : ProductData :=
  let pd := fieldMappings.foldl (applyMappingUtils row) initialProductData
  if pd.slug = "" ∧ pd.name ≠ "" then { pd with slug := slugify pd.name } else pd

/-! ## Single-record importer -/

/-- What one `axios.post` to the catalog API resolves to: `ok id` is a 2xx
response carrying the created record's id; `failure apiMsg errMsg` is a
rejection or transport error, with `apiMsg` playing
`error.response?.data?.error?.message` and `errMsg` playing `error.message`
(`none` = the JS value is absent/undefined). -/
inductive CatalogResponse where
  | ok (id : Nat)
  | failure (apiMsg : Option String) (errMsg : Option String)
deriving Repr, DecidableEq

/-- The `{ success, error? }` object `processProductImport` resolves with. -/
structure ImportOutcome where
  success : Bool
  error : Option String
deriving Repr, DecidableEq

/-- The `catch` block's reason (route.ts line 191):
`error.response?.data?.error?.message || error.message || 'Unknown error'`. -/
def failureReason (apiMsg errMsg : Option String) : String :=
  jsOrStr apiMsg (jsOrStr errMsg "Unknown error")

/-- Outcome of the submission stage given the catalog's response: a success
returns `{ success: true }`; any rejection is caught and converted to
`{ success: false, error: reason }` — nothing propagates past the boundary. -/
def outcomeOfResponse : CatalogResponse → ImportOutcome
  | CatalogResponse.ok _ => { success := true, error := none }
  | CatalogResponse.failure a e => { success := false, error := some (failureReason a e) }

/-- `processProductImport` of `src/app/api/admin/import/route.ts`
(lines 42-194): map the row; if the mapped `name` is empty return the
validation failure **without** consulting the catalog (the oracle `api` is
not applied); otherwise submit the payload and classify the response.  The
asset-URL section (lines 166-184) only logs and cannot change the result. -/
def processProductImportRoute (row : RawRow) (fieldMappings : FieldMappings)
    (api : ProductData → CatalogResponse) : ImportOutcome :=
  let productData := mapRowToProductRoute row fieldMappings
  if productData.name = "" then { success := false, error := some "Name is required" }
  else outcomeOfResponse (api productData)

/-- `processProductImport` of `src/utils/api.ts` (lines 52-204), translated
from its own source text. -/
def processProductImportUtils (row : RawRow) (fieldMappings : FieldMappings)
    (api : ProductData → CatalogResponse) : ImportOutcome :=
  let productData := mapRowToProductUtils row fieldMappings
  if productData.name = "" then { success := false, error := some "Name is required" }
  else outcomeOfResponse (api productData)

/-! ## Batch runners -/

/-- The per-row error entry pushed on failure (route.ts line 264 / api.ts
line 229): `` `Row ${i + 1}: ${result.error || 'Unknown error'}` ``. -/
def rowErrorEntry (i : Nat) (err : Option String) : String :=
  "Row " ++ toString (i + 1) ++ ": " ++ jsOrStr err "Unknown error"

/-- The synchronous batch loop of `POST` (route.ts lines 254-266), as
structural recursion over the remaining rows with `i` the index of the next
row.  `api i` is the catalog oracle for the call made on row `i`.  Returns
`(processed, errors)`. -/
def runRowsFrom (fieldMappings : FieldMappings) (api : Nat → ProductData → CatalogResponse) :
    Nat → List RawRow → Nat × List String
  | _, [] => (0, [])
  | i, row :: rest =>
    let result := processProductImportRoute row fieldMappings (api i)
    let after := runRowsFrom fieldMappings api (i + 1) rest
    if result.success then (after.1 + 1, after.2)
    else (after.1, rowErrorEntry i result.error :: after.2)

/-- Accumulated observable effects of the background worker: final counts,
error list, and the sequence of `job.updateProgress` values in call order. -/
structure WorkerAcc where
  processed : Nat
  errors : List String
  trace : List Nat
deriving Repr, DecidableEq

/-- JS `Math.round(((i + 1) / csvData.length) * 100)` on exact rationals:
`round(100k/n) = ⌊(200k + n) / (2n)⌋` (JS rounds halves up; the argument is
non-negative). -/
def jsRound100 (k n : Nat) : Nat :=
  (200 * k + n) / (2 * n)

/-- The BullMQ worker handler's loop in `src/utils/api.ts` (lines 222-234):
per row, run `processProductImport`, bump `processed` or push
`Row ${i+1}: …`, then `await job.updateProgress(round(((i+1)/total)*100))`
— the progress update happens on every row, success or failure. -/
def importWorkerFrom (fieldMappings : FieldMappings)
    (api : Nat → ProductData → CatalogResponse) (total : Nat) :
    Nat → List RawRow → WorkerAcc
  | _, [] => { processed := 0, errors := [], trace := [] }
  | i, row :: rest =>
    let result := processProductImportUtils row fieldMappings (api i)
    let after := importWorkerFrom fieldMappings api total (i + 1) rest
    if result.success then
      { processed := after.processed + 1
        errors := after.errors
        trace := jsRound100 (i + 1) total :: after.trace }
    else
      { processed := after.processed
        errors := rowErrorEntry i result.error :: after.errors
        trace := jsRound100 (i + 1) total :: after.trace }

/-- The whole worker handler run over a job's `csvData`. -/
def importWorkerRun (csvData : List RawRow) (fieldMappings : FieldMappings)
    (api : Nat → ProductData → CatalogResponse) : WorkerAcc :=
  importWorkerFrom fieldMappings api csvData.length 0 csvData

/-- The `{ processed, total, errors }` object the worker handler returns
(api.ts lines 236-240); this becomes the BullMQ job's `returnvalue`. -/
structure BatchResult where
  processed : Nat
  total : Nat
  errors : List String
deriving Repr, DecidableEq

/-- The worker handler's return value for a job. -/
def importWorkerResult (csvData : List RawRow) (fieldMappings : FieldMappings)
    (api : Nat → ProductData → CatalogResponse) : BatchResult :=
  let acc := importWorkerRun csvData fieldMappings api
  { processed := acc.processed, total := csvData.length, errors := acc.errors }

/-! ## Job store / status endpoint -/

/-- The four-state lifecycle exposed to pollers. -/
inductive JobStatus where
  | pending
  | processing
  | completed
  | failed
deriving Repr, DecidableEq

/-- The observable BullMQ job handle consulted by the status endpoint:
`getState()` string, numeric `progress`, `returnvalue` (the handler's return
value, absent until the handler has returned), the stored job data's row
count, and `failedReason`. -/
structure BullJob where
  id : String
  state : String
  progress : Nat
  returnvalue : Option BatchResult
  dataTotal : Nat
  failedReason : Option String
deriving Repr, DecidableEq

/-- State classification of the `GET` status handler (part_000 lines
348-356): `completed`/`failed`/`active` in that order of checks, anything
else (waiting, delayed, …) left at the `pending` default. -/
def statusOfState (state : String) : JobStatus :=
  if state = "completed" then JobStatus.completed
  else if state = "failed" then JobStatus.failed
  else if state = "active" then JobStatus.processing
  else JobStatus.pending

/-- The JSON body the status endpoint returns for a found job
(part_000 lines 362-375); `error = none` models the key being absent. -/
structure StatusBody where
  id : String
  status : JobStatus
  progress : Nat
  total : Nat
  processed : Nat
  errors : List String
  error : Option String
deriving Repr, DecidableEq

/-- Response of `GET /api/admin/import/[id]`, tagged by HTTP outcome:
401 unauthorized, 503 queue unavailable, 404 job unknown, or 200 with body. -/
inductive StatusResponse where
  | unauthorized
  | unavailable (msg : String)
  | jobUnknown (msg : String)
  | ok (body : StatusBody)
deriving Repr, DecidableEq

/-- Body construction for a found job (part_000 lines 343-375):
`processed`/`errors` are read off `returnvalue?.…` with falsy fallbacks, and
the top-level `error` key is added only when the native state is `failed`. -/
def statusBodyOfJob (job : BullJob) : StatusBody :=
  { id := job.id
    status := statusOfState job.state
    progress := job.progress
    total := job.dataTotal
    processed := match job.returnvalue with
      | some rv => rv.processed
      | none => 0
    errors := match job.returnvalue with
      | some rv => rv.errors
      | none => []
    error := if job.state = "failed" then some (jsOrStr job.failedReason "Job failed") else none }

/-- `GET /api/admin/import/[id]` (part_000 lines 316-385).  `queue` is the
lazily initialised module-level `importQueue` (`none` when construction
failed), modelled as the `getJob` lookup it exposes. -/
def getStatus (hasSession : Bool) (queue : Option (String → Option BullJob))
    (id : String) : StatusResponse :=
  if ¬ hasSession then StatusResponse.unauthorized
  else
    match queue with
    | none => StatusResponse.unavailable "Job queue not available"
    | some getJob =>
      match getJob id with
      | none => StatusResponse.jobUnknown "Job not found"
      | some job => StatusResponse.ok (statusBodyOfJob job)

/-! ## Import start endpoint (`POST /api/admin/import`) -/

/-- `const LARGE_IMPORT_THRESHOLD = 50` (route.ts line 39). -/
def LARGE_IMPORT_THRESHOLD : Nat := 50

/-- The background-path response body (route.ts lines 243-250). -/
structure JobHandleBody where
  id : String
  status : JobStatus
  progress : Nat
  total : Nat
  processed : Nat
  errors : List String
deriving Repr, DecidableEq

/-- Response of `POST /api/admin/import`, tagged by shape: 401, 400,
the queued-job handle, or the inline synchronous result
(`{ success: true, processed, total, errors }`). -/
inductive PostResponse where
  | unauthorized (msg : String)
  | badRequest (msg : String)
  | jobQueued (body : JobHandleBody)
  | syncDone (processed : Nat) (total : Nat) (errors : List String)
deriving Repr, DecidableEq

/-- `POST /api/admin/import` (route.ts lines 197-281).  `hasJwt` abstracts
the session/JWT checks; `csvData = none` models a missing/non-array body
field; `queueAvailable` is whether the module-level `importQueue` was
constructed; `newJobId` is the id BullMQ assigns on `add`; `api` is the
catalog oracle indexed by row position. -/
def postImport (hasJwt : Bool) (csvData : Option (List RawRow))
    (fieldMappings : FieldMappings) (queueAvailable : Bool) (newJobId : String)
    (api : Nat → ProductData → CatalogResponse) : PostResponse :=
  if ¬ hasJwt then PostResponse.unauthorized "Unauthorized"
  else
    match csvData with
    | none => PostResponse.badRequest "CSV data is required"
    | some rows =>
      if rows.isEmpty then PostResponse.badRequest "CSV data is required"
      else if fieldMappings.isEmpty then PostResponse.badRequest "Field mappings are required"
      else
        let totalProducts := rows.length
        let isLargeImport := totalProducts > LARGE_IMPORT_THRESHOLD
        if isLargeImport ∧ queueAvailable then
          PostResponse.jobQueued
            { id := newJobId, status := JobStatus.pending, progress := 0
              total := totalProducts, processed := 0, errors := [] }
        else
          let r := runRowsFrom fieldMappings api 0 rows
          PostResponse.syncDone r.1 totalProducts r.2

/-! ## Observable job snapshots during an async run

The BullMQ collaborator itself is outside the repository.  Modelled from the
spec: the background-job collaborator's handle exposes state, progress,
return value and failure reason (§6); a job whose handler is still running is
in the native `active` state with the progress last written by
`updateProgress` (initially 0), and its `returnvalue` exists only once the
handler has returned, at which point the job transitions to `completed`. -/

/-- Internal worker state after the first `k` rows of `csvData` have been
attempted: the counts and error list over `csvData.take k` (with the
original indices and total). -/
def workerPartial (csvData : List RawRow) (fieldMappings : FieldMappings)
    (api : Nat → ProductData → CatalogResponse) (k : Nat) : WorkerAcc :=
  importWorkerFrom fieldMappings api csvData.length 0 (csvData.take k)

/-- Modelled from the spec: the observable BullMQ job handle for an async
batch after exactly `k` of the `n = csvData.length` rows have been attempted.
For `k < n` the handler is still running: state `active`, progress as last
written (0 before any row), no `returnvalue`.  At `k = n` the handler has
returned: state `completed` with the handler's return value. -/
def jobSnapshot (jobId : String) (csvData : List RawRow)
    (fieldMappings : FieldMappings) (api : Nat → ProductData → CatalogResponse)
    (k : Nat) : BullJob :=
  if k < csvData.length then
    { id := jobId, state := "active"
      progress := if k = 0 then 0 else jsRound100 k csvData.length
      returnvalue := none
      dataTotal := csvData.length
      failedReason := none }
  else
    { id := jobId, state := "completed"
      progress := jsRound100 csvData.length csvData.length
      returnvalue := some (importWorkerResult csvData fieldMappings api)
      dataTotal := csvData.length
      failedReason := none }

/-! ## Helper lemmas: slug characters -/

theorem slugChar_toNat (c : Char) (h : isSlugChar c = true) :
    (97 ≤ c.toNat ∧ c.toNat ≤ 122) ∨ (48 ≤ c.toNat ∧ c.toNat ≤ 57) := by
  unfold isSlugChar at h
  simp only [Bool.or_eq_true, decide_eq_true_eq] at h
  exact h

theorem slugChar_toLower_eq (c : Char) (h : isSlugChar c = true) : c.toLower = c := by
  have h2 := slugChar_toNat c h
  unfold Char.toLower
  rw [if_neg]
  rintro ⟨h65, h90⟩
  omega

theorem slugChar_ne_hyphen (c : Char) (h : isSlugChar c = true) : (c == '-') = false := by
  have h2 := slugChar_toNat c h
  rw [beq_eq_false_iff_ne]
  intro he
  subst he
  revert h2
  decide

/-! ## Helper lemmas: collapse / trim of the slug pipeline -/

theorem mem_collapseRunsAux (cs : List Char) (b : Bool) (c : Char)
    (h : c ∈ collapseRunsAux cs b) : isSlugChar c = true ∨ c = '-' := by
  induction cs generalizing b with
  | nil => simp [collapseRunsAux] at h
  | cons x xs ih =>
    unfold collapseRunsAux at h
    by_cases hx : isSlugChar x
    · simp only [hx, if_pos] at h
      rcases List.mem_cons.mp h with rfl | h2
      · exact Or.inl hx
      · exact ih false h2
    · simp only [hx, Bool.false_eq_true, if_false] at h
      cases b with
      | true => simp only [if_pos] at h; exact ih true h
      | false =>
        simp only [Bool.false_eq_true, if_false] at h
        rcases List.mem_cons.mp h with rfl | h2
        · exact Or.inr rfl
        · exact ih true h2

theorem mem_collapseRunsAux_of_slug (cs : List Char) (b : Bool) (c : Char)
    (hm : c ∈ cs) (hc : isSlugChar c = true) : c ∈ collapseRunsAux cs b := by
  induction cs generalizing b with
  | nil => simp at hm
  | cons x xs ih =>
    unfold collapseRunsAux
    by_cases hx : isSlugChar x
    · simp only [hx, if_pos]
      rcases List.mem_cons.mp hm with rfl | h2
      · exact List.mem_cons_self c _
      · exact List.mem_cons_of_mem x (ih false h2)
    · have hne : c ≠ x := by
        intro he; subst he; exact absurd hc (by simp [hx])
      have h2 : c ∈ xs := by
        rcases List.mem_cons.mp hm with rfl | h2
        · exact absurd rfl hne
        · exact h2
      simp only [hx, Bool.false_eq_true, if_false]
      cases b with
      | true => simp only [if_pos]; exact ih true h2
      | false =>
        simp only [Bool.false_eq_true, if_false]
        exact List.mem_cons_of_mem '-' (ih true h2)

theorem mem_dropWhile_of_mem {p : Char → Bool} {l : List Char} {c : Char}
    (hm : c ∈ l) (hc : p c = false) : c ∈ l.dropWhile p := by
  induction l with
  | nil => simp at hm
  | cons x xs ih =>
    rw [List.dropWhile_cons]
    rcases List.mem_cons.mp hm with rfl | h2
    · simp [hc]
    · by_cases hx : p x
      · simp [hx, ih h2]
      · simp [hx, List.mem_cons, h2]

theorem mem_of_mem_dropWhile {p : Char → Bool} {l : List Char} {c : Char}
    (h : c ∈ l.dropWhile p) : c ∈ l := by
  induction l with
  | nil => simp [List.dropWhile] at h
  | cons x xs ih =>
    rw [List.dropWhile_cons] at h
    by_cases hx : p x
    · simp only [hx, if_pos] at h
      exact List.mem_cons_of_mem x (ih h)
    · simp only [hx, Bool.false_eq_true, if_false] at h
      exact h

theorem head?_dropWhile_not {p : Char → Bool} (l : List Char) (c : Char)
    (h : (l.dropWhile p).head? = some c) : p c = false := by
  induction l with
  | nil => simp [List.dropWhile] at h
  | cons x xs ih =>
    rw [List.dropWhile_cons] at h
    by_cases hx : p x
    · simp only [hx, if_pos] at h
      exact ih h
    · simp only [hx, Bool.false_eq_true, if_false, List.head?_cons, Option.some.injEq] at h
      subst h
      exact Bool.eq_false_iff.mpr hx

theorem getLast?_dropWhile_ne_nil {p : Char → Bool} (l : List Char)
    (h : l.dropWhile p ≠ []) : (l.dropWhile p).getLast? = l.getLast? := by
  induction l with
  | nil => simp [List.dropWhile] at h
  | cons x xs ih =>
    rw [List.dropWhile_cons]
    by_cases hx : p x
    · rw [List.dropWhile_cons, if_pos hx] at h
      have hxs : xs.dropWhile p ≠ [] := h
      rw [if_pos hx, ih hxs]
      have hne : xs ≠ [] := by
        intro he; subst he; simp [List.dropWhile] at hxs
      rw [List.getLast?_cons]
      cases hgl : xs.getLast? with
      | none => exact absurd (List.getLast?_eq_none_iff.mp hgl) hne
      | some y => simp
    · simp [hx]

theorem collapseRunsAux_no_slug_true (cs : List Char)
    (h : ∀ c ∈ cs, isSlugChar c = false) : collapseRunsAux cs true = [] := by
  induction cs with
  | nil => rfl
  | cons x xs ih =>
    unfold collapseRunsAux
    have hx := h x (List.mem_cons_self x xs)
    simp only [hx, Bool.false_eq_true, if_false, if_pos]
    exact ih (fun c hc => h c (List.mem_cons_of_mem x hc))

theorem collapseRunsAux_no_slug_false (cs : List Char)
    (h : ∀ c ∈ cs, isSlugChar c = false) :
    collapseRunsAux cs false = [] ∨ collapseRunsAux cs false = ['-'] := by
  cases cs with
  | nil => exact Or.inl rfl
  | cons x xs =>
    right
    unfold collapseRunsAux
    have hx := h x (List.mem_cons_self x xs)
    simp only [hx, Bool.false_eq_true, if_false]
    rw [collapseRunsAux_no_slug_true xs (fun c hc => h c (List.mem_cons_of_mem x hc))]

theorem mem_trimHyphens_of_mem (cs : List Char) (c : Char)
    (hm : c ∈ cs) (hc : (c == '-') = false) : c ∈ trimHyphens cs := by
  unfold trimHyphens
  rw [List.mem_reverse]
  apply mem_dropWhile_of_mem (p := fun c => c == '-') _ hc
  rw [List.mem_reverse]
  exact mem_dropWhile_of_mem (p := fun c => c == '-') hm hc

theorem mem_of_mem_trimHyphens (cs : List Char) (c : Char)
    (h : c ∈ trimHyphens cs) : c ∈ cs := by
  unfold trimHyphens at h
  rw [List.mem_reverse] at h
  have h2 := mem_of_mem_dropWhile h
  rw [List.mem_reverse] at h2
  exact mem_of_mem_dropWhile h2

theorem trimHyphens_head_ne (cs : List Char) (c : Char)
    (h : (trimHyphens cs).head? = some c) : c ≠ '-' := by
  unfold trimHyphens at h
  intro he
  subst he
  set A := cs.dropWhile (fun c => c == '-') with hA
  set B := A.reverse.dropWhile (fun c => c == '-') with hB
  rw [List.head?_reverse] at h
  have hBne : B ≠ [] := by
    intro he2
    rw [he2] at h
    simp at h
  rw [hB, getLast?_dropWhile_ne_nil _ (hB ▸ hBne)] at h
  rw [List.getLast?_reverse] at h
  have := head?_dropWhile_not (p := fun c => c == '-') cs '-' (hA ▸ h)
  simp at this

theorem trimHyphens_getLast_ne (cs : List Char) (c : Char)
    (h : (trimHyphens cs).getLast? = some c) : c ≠ '-' := by
  unfold trimHyphens at h
  intro he
  subst he
  rw [List.getLast?_reverse] at h
  have := head?_dropWhile_not (p := fun c => c == '-') _ '-' h
  simp at this

/-- The characters of `slugify name` are all in `[a-z0-9-]`. -/
theorem slugify_chars (name : String) (c : Char) (h : c ∈ (slugify name).data) :
    isSlugChar c = true ∨ c = '-' :=
  mem_collapseRunsAux _ _ c (mem_of_mem_trimHyphens _ c h)

/-- The slug has no leading hyphen. -/
theorem slugify_head_ne (name : String) (c : Char)
    (h : (slugify name).data.head? = some c) : c ≠ '-' :=
  trimHyphens_head_ne _ c h

/-- The slug has no trailing hyphen. -/
theorem slugify_getLast_ne (name : String) (c : Char)
    (h : (slugify name).data.getLast? = some c) : c ≠ '-' :=
  trimHyphens_getLast_ne _ c h

/-- Every slug character is fixed by `toLower` — the slug is lowercase. -/
theorem slugify_lower (name : String) (c : Char) (h : c ∈ (slugify name).data) :
    c.toLower = c := by
  rcases slugify_chars name c h with hs | rfl
  · exact slugChar_toLower_eq c hs
  · decide

/-- The slug is empty iff the lowered, trimmed name has no `[a-z0-9]`
character. -/
theorem slugify_empty_iff (name : String) :
    slugify name = "" ↔ ∀ c ∈ (trimStr (toLowerStr name)).data, isSlugChar c = false := by
  constructor
  · intro he c hc
    by_contra hslug
    rw [Bool.not_eq_false] at hslug
    have h1 : c ∈ collapseRunsAux (trimStr (toLowerStr name)).data false :=
      mem_collapseRunsAux_of_slug _ false c hc hslug
    have h2 : c ∈ trimHyphens (collapseRunsAux (trimStr (toLowerStr name)).data false) :=
      mem_trimHyphens_of_mem _ c h1 (slugChar_ne_hyphen c hslug)
    have h3 : c ∈ (slugify name).data := h2
    rw [he] at h3
    simp at h3
  · intro h
    unfold slugify
    rcases collapseRunsAux_no_slug_false _ h with he | he
    · rw [he]; rfl
    · rw [he]; rfl

/-! ## Helper lemmas: progress rounding -/

theorem jsRound100_mono (n : Nat) {k k2 : Nat} (h : k ≤ k2) :
    jsRound100 k n ≤ jsRound100 k2 n :=
  Nat.div_le_div_right (by omega)

theorem jsRound100_total (n : Nat) (h : 0 < n) : jsRound100 n n = 100 := by
  unfold jsRound100
  have he : 200 * n + n = n + 2 * n * 100 := by ring
  rw [he, Nat.add_mul_div_left _ _ (by omega), Nat.div_eq_of_lt (by omega)]

theorem jsRound100_le_100 (n k : Nat) (h : k ≤ n) (hn : 0 < n) : jsRound100 k n ≤ 100 :=
  calc jsRound100 k n ≤ jsRound100 n n := jsRound100_mono n h
    _ = 100 := jsRound100_total n hn

/-! ## Helper lemmas: batch runners -/

/-- One unfolding step of the synchronous loop. -/
theorem runRowsFrom_cons (m : FieldMappings) (api : Nat → ProductData → CatalogResponse)
    (i : Nat) (row : RawRow) (rest : List RawRow) :
    runRowsFrom m api i (row :: rest) =
      (if (processProductImportRoute row m (api i)).success then
        ((runRowsFrom m api (i + 1) rest).1 + 1, (runRowsFrom m api (i + 1) rest).2)
      else ((runRowsFrom m api (i + 1) rest).1,
            rowErrorEntry i (processProductImportRoute row m (api i)).error
              :: (runRowsFrom m api (i + 1) rest).2)) := rfl

/-- Every row of the synchronous batch contributes one success or one error:
`processed + errors.length` is the batch size. -/
theorem runRowsFrom_total (m : FieldMappings) (api : Nat → ProductData → CatalogResponse) :
    ∀ (rows : List RawRow) (i : Nat),
      (runRowsFrom m api i rows).1 + (runRowsFrom m api i rows).2.length = rows.length := by
  intro rows
  induction rows with
  | nil => intro i; rfl
  | cons row rest ih =>
    intro i
    rw [runRowsFrom_cons]
    by_cases hs : (processProductImportRoute row m (api i)).success
    · simp only [hs, if_pos, List.length_cons]
      have := ih (i + 1)
      omega
    · simp only [hs, Bool.false_eq_true, if_false, List.length_cons]
      have := ih (i + 1)
      omega

/-- The synchronous error list, characterised: one entry per failed row, in
input order, formatted `Row <1-based index>: <reason>`. -/
theorem runRowsFrom_errors (m : FieldMappings) (api : Nat → ProductData → CatalogResponse) :
    ∀ (rows : List RawRow) (i : Nat),
      (runRowsFrom m api i rows).2 =
        (rows.enumFrom i).filterMap (fun p =>
          if (processProductImportRoute p.2 m (api p.1)).success then none
          else some (rowErrorEntry p.1 (processProductImportRoute p.2 m (api p.1)).error)) := by
  intro rows
  induction rows with
  | nil => intro i; rfl
  | cons row rest ih =>
    intro i
    rw [runRowsFrom_cons, List.enumFrom_cons, List.filterMap_cons]
    by_cases hs : (processProductImportRoute row m (api i)).success
    · simp only [hs, if_pos]
      exact ih (i + 1)
    · simp only [hs, Bool.false_eq_true, if_false]
      rw [ih (i + 1)]

/-- One unfolding step of the worker loop. -/
theorem importWorkerFrom_cons (m : FieldMappings) (api : Nat → ProductData → CatalogResponse)
    (total i : Nat) (row : RawRow) (rest : List RawRow) :
    importWorkerFrom m api total i (row :: rest) =
      (if (processProductImportUtils row m (api i)).success then
        { processed := (importWorkerFrom m api total (i + 1) rest).processed + 1
          errors := (importWorkerFrom m api total (i + 1) rest).errors
          trace := jsRound100 (i + 1) total :: (importWorkerFrom m api total (i + 1) rest).trace }
      else
        { processed := (importWorkerFrom m api total (i + 1) rest).processed
          errors := rowErrorEntry i (processProductImportUtils row m (api i)).error
            :: (importWorkerFrom m api total (i + 1) rest).errors
          trace := jsRound100 (i + 1) total :: (importWorkerFrom m api total (i + 1) rest).trace }) := rfl

/-- Worker totality: `processed + errors.length` is the number of rows. -/
theorem importWorkerFrom_total (m : FieldMappings) (api : Nat → ProductData → CatalogResponse)
    (total : Nat) :
    ∀ (rows : List RawRow) (i : Nat),
      (importWorkerFrom m api total i rows).processed +
        (importWorkerFrom m api total i rows).errors.length = rows.length := by
  intro rows
  induction rows with
  | nil => intro i; rfl
  | cons row rest ih =>
    intro i
    rw [importWorkerFrom_cons]
    by_cases hs : (processProductImportUtils row m (api i)).success
    · simp only [hs, if_pos, List.length_cons]
      have := ih (i + 1)
      omega
    · simp only [hs, Bool.false_eq_true, if_false, List.length_cons]
      have := ih (i + 1)
      omega

/-- Worker error list, characterised like the synchronous one. -/
theorem importWorkerFrom_errors (m : FieldMappings)
    (api : Nat → ProductData → CatalogResponse) (total : Nat) :
    ∀ (rows : List RawRow) (i : Nat),
      (importWorkerFrom m api total i rows).errors =
        (rows.enumFrom i).filterMap (fun p =>
          if (processProductImportUtils p.2 m (api p.1)).success then none
          else some (rowErrorEntry p.1 (processProductImportUtils p.2 m (api p.1)).error)) := by
  intro rows
  induction rows with
  | nil => intro i; rfl
  | cons row rest ih =>
    intro i
    rw [importWorkerFrom_cons, List.enumFrom_cons, List.filterMap_cons]
    by_cases hs : (processProductImportUtils row m (api i)).success
    · simp only [hs, if_pos]
      exact ih (i + 1)
    · simp only [hs, Bool.false_eq_true, if_false]
      rw [ih (i + 1)]

/-- The progress-update trace: the call after row `i` (0-based) writes
`round(100·(i+1)/total)`, so the worker's trace over rows `i, i+1, …` is
`jsRound100` mapped over `[i+1, …, i+length]`. -/
theorem importWorkerFrom_trace (m : FieldMappings)
    (api : Nat → ProductData → CatalogResponse) (total : Nat) :
    ∀ (rows : List RawRow) (i : Nat),
      (importWorkerFrom m api total i rows).trace =
        (List.range' (i + 1) rows.length).map (fun j => jsRound100 j total) := by
  intro rows
  induction rows with
  | nil => intro i; rfl
  | cons row rest ih =>
    intro i
    rw [importWorkerFrom_cons, List.length_cons, List.range'_succ, List.map_cons]
    by_cases hs : (processProductImportUtils row m (api i)).success
    · simp only [hs, if_pos]
      rw [ih (i + 1)]
    · simp only [hs, Bool.false_eq_true, if_false]
      rw [ih (i + 1)]

/-- The worker-trace characterisation instantiated at a full run. -/
theorem importWorkerRun_trace (rows : List RawRow) (m : FieldMappings)
    (api : Nat → ProductData → CatalogResponse) :
    (importWorkerRun rows m api).trace =
      (List.range' 1 rows.length).map (fun j => jsRound100 j rows.length) :=
  importWorkerFrom_trace m api rows.length rows 0

/-! ## Claim theorems -/

/-- C3: row mapping fails with the validation error `Name is required` iff
the final mapped name is empty after defaulting; when it does, the result is
fixed independently of the catalog oracle (no create call is made), and when
the name is non-empty, the outcome is exactly the classification of the
catalog's response to the mapped payload — there is no other validation
failure at the mapping stage. -/
theorem claim_C3_name_validation (row : RawRow) (m : FieldMappings) :
    ((mapRowToProductRoute row m).name = "" →
      ∀ api : ProductData → CatalogResponse,
        processProductImportRoute row m api =
          { success := false, error := some "Name is required" }) ∧
    ((mapRowToProductRoute row m).name ≠ "" →
      ∀ api : ProductData → CatalogResponse,
        processProductImportRoute row m api =
          outcomeOfResponse (api (mapRowToProductRoute row m))) := by
  constructor
  · intro h api
    unfold processProductImportRoute
    simp [h]
  · intro h api
    unfold processProductImportRoute
    simp [h]

/-- Witness for C3: a row mapping the name column to an empty cell leaves the
name empty, and the importer fails with `Name is required` without consulting
the catalog. -/
theorem claim_C3_name_validation_witness :
    processProductImportRoute [("Name", "")] [("Name", "name")]
        (fun _ => CatalogResponse.ok 1) =
      { success := false, error := some "Name is required" } :=
  (claim_C3_name_validation [("Name", "")] [("Name", "name")]).1 rfl
    (fun _ => CatalogResponse.ok 1)

/-- C10: the synchronous path's per-row importer (route.ts) and the
background worker's per-row importer (utils/api.ts) are extensionally equal:
for every row, field mapping and catalog response they produce the same
outcome, and they submit the same mapped payload. -/
theorem claim_C10_importer_equivalence (row : RawRow) (m : FieldMappings)
    (api : ProductData → CatalogResponse) :
    processProductImportRoute row m api = processProductImportUtils row m api ∧
    mapRowToProductRoute row m = mapRowToProductUtils row m := by
  exact ⟨rfl, rfl⟩

/-- C4 counterexample: a whitespace-only cell is empty after trimming, yet
the currency field is overwritten with the empty string instead of being left
at its default `EUR` — the code tests the cell for emptiness *before*
trimming. -/
theorem claim_C4_counterexample :
    lookupRow [("C", " ")] "C" = some " " ∧
    trimStr " " = "" ∧
    (mapRowToProductRoute [("C", " ")] [("C", "currency")]).currency = "" ∧
    (mapRowToProductRoute [("C", " ")] [("C", "currency")]).currency ≠ "EUR" := by
  refine ⟨rfl, rfl, rfl, ?_⟩
  decide

/-- C4 (amended): a mapping entry is skipped — the record is left unchanged,
with no error — exactly when the target field is the skip sentinel or the row
has no value for that column or the raw value is the empty string *before*
trimming; a whitespace-only value is instead trimmed to empty and written
over the default. -/
theorem claim_C4_skip_defaults (row : RawRow) (pd : ProductData) (col field : String)
    (h : field = "" ∨ lookupRow row col = none ∨ lookupRow row col = some "") :
    applyMappingRoute row pd (col, field) = pd := by
  unfold applyMappingRoute
  rcases h with rfl | h | h
  · simp
  · simp [h]
  · rw [h]
    simp

/-- Witness for C4 (amended): a mapping whose column is absent from the row
leaves the payload at its defaults. -/
theorem claim_C4_skip_defaults_witness :
    applyMappingRoute [("X", "1")] initialProductData ("C", "currency") =
      initialProductData :=
  claim_C4_skip_defaults [("X", "1")] initialProductData "C" "currency"
    (Or.inr (Or.inl rfl))

/-- C5 counterexample: a non-empty name consisting only of non-alphanumeric
characters maps successfully but auto-generates the *empty* slug, which is
neither non-empty nor a match of `^[a-z0-9-]+$`. -/
theorem claim_C5_counterexample :
    (mapRowToProductRoute [("N", "!")] [("N", "name")]).name = "!" ∧
    (mapRowToProductRoute [("N", "!")] [("N", "name")]).slug = "" := by
  exact ⟨rfl, rfl⟩

/-- C5 (amended): when the mapped slug is empty and the mapped name is
non-empty, the auto-generated slug is `slugify name` — deterministic in the
name, made only of `[a-z0-9-]`, lowercase (fixed by `toLower`), with no
leading or trailing hyphen; it is non-empty exactly when the lowered, trimmed
name contains at least one `[a-z0-9]` character (so a name with no
alphanumeric character yields an empty slug). -/
theorem claim_C5_slug_generation (row : RawRow) (m : FieldMappings)
    (hslug : (m.foldl (applyMappingRoute row) initialProductData).slug = "")
    (hname : (m.foldl (applyMappingRoute row) initialProductData).name ≠ "") :
    (mapRowToProductRoute row m).slug =
      slugify (m.foldl (applyMappingRoute row) initialProductData).name ∧
    (∀ c ∈ (mapRowToProductRoute row m).slug.data, isSlugChar c = true ∨ c = '-') ∧
    (∀ c ∈ (mapRowToProductRoute row m).slug.data, c.toLower = c) ∧
    (∀ c, (mapRowToProductRoute row m).slug.data.head? = some c → c ≠ '-') ∧
    (∀ c, (mapRowToProductRoute row m).slug.data.getLast? = some c → c ≠ '-') ∧
    ((mapRowToProductRoute row m).slug = "" ↔
      ∀ c ∈ (trimStr (toLowerStr
          (m.foldl (applyMappingRoute row) initialProductData).name)).data,
        isSlugChar c = false) := by
  have he : mapRowToProductRoute row m =
      { m.foldl (applyMappingRoute row) initialProductData with
        slug := slugify (m.foldl (applyMappingRoute row) initialProductData).name } := by
    unfold mapRowToProductRoute
    rw [if_pos ⟨hslug, hname⟩]
  rw [he]
  refine ⟨rfl, ?_, ?_, ?_, ?_, ?_⟩
  · exact fun c hc => slugify_chars _ c hc
  · exact fun c hc => slugify_lower _ c hc
  · exact fun c hc => slugify_head_ne _ c hc
  · exact fun c hc => slugify_getLast_ne _ c hc
  · exact slugify_empty_iff _

/-- Witness for C5 (amended): mapping `Name = "Chair A"` with no slug column
auto-generates the slug `chair-a`. -/
theorem claim_C5_slug_generation_witness :
    (mapRowToProductRoute [("N", "Chair A")] [("N", "name")]).slug =
      slugify "Chair A" :=
  (claim_C5_slug_generation [("N", "Chair A")] [("N", "name")] rfl (by decide)).1

/-- C6 counterexample: only `hotel_grade` receives the boolean parse; the
`availability` field is stored as the raw trimmed cell string, so two cells
the claim sends to the same boolean `false` produce *different* mapped
values, and no boolean is involved. -/
theorem claim_C6_counterexample :
    (mapRowToProductRoute [("A", "foo")] [("A", "availability")]).availability = "foo" ∧
    (mapRowToProductRoute [("A", "bar")] [("A", "availability")]).availability = "bar" ∧
    (mapRowToProductRoute [("A", "foo")] [("A", "availability")]).availability ≠
      (mapRowToProductRoute [("A", "bar")] [("A", "availability")]).availability := by
  refine ⟨rfl, rfl, ?_⟩
  decide

/-- C6 (amended): for `hotel_grade` the mapped value is the boolean `true`
exactly when the trimmed cell case-insensitively equals `true` or `yes`, and
`false` otherwise, with no null state; `availability`, by contrast, is stored
as the trimmed cell string itself (default `In Stock`), not a boolean. -/
theorem claim_C6_boolean_parsing (row : RawRow) (pd : ProductData) (col v : String)
    (hl : lookupRow row col = some v) (hv : v ≠ "") :
    ((applyMappingRoute row pd (col, "hotel_grade")).hotel_grade = true ↔
      (toLowerStr (trimStr v) = "true" ∨ toLowerStr (trimStr v) = "yes")) ∧
    (applyMappingRoute row pd (col, "availability")).availability = trimStr v := by
  constructor
  · unfold applyMappingRoute
    rw [hl]
    simp only [String.reduceEq, if_false, hv, decide_eq_true_eq]
  · unfold applyMappingRoute
    rw [hl]
    simp [hv]

/-- Witness for C6 (amended): a cell ` YeS ` sets `hotel_grade` to `true`,
and a cell ` Limited ` sets `availability` to the string `Limited`. -/
theorem claim_C6_boolean_parsing_witness :
    ((applyMappingRoute [("H", " YeS ")] initialProductData
        ("H", "hotel_grade")).hotel_grade = true ↔
      (toLowerStr (trimStr " YeS ") = "true" ∨
        toLowerStr (trimStr " YeS ") = "yes")) ∧
    (applyMappingRoute [("A", " Limited ")] initialProductData
        ("A", "availability")).availability = trimStr " Limited " := by
  constructor
  · exact (claim_C6_boolean_parsing [("H", " YeS ")] initialProductData "H" " YeS "
      rfl (by decide)).1
  · exact (claim_C6_boolean_parsing [("A", " Limited ")] initialProductData "A" " Limited "
      rfl (by decide)).2

/-- Helper for C1: if every row's importer call fails, the worker counts no
successes. -/
theorem importWorkerFrom_allfail (m : FieldMappings)
    (api : Nat → ProductData → CatalogResponse) (total : Nat) :
    ∀ (rows : List RawRow) (i : Nat),
      (∀ p ∈ rows.enumFrom i, (processProductImportUtils p.2 m (api p.1)).success = false) →
      (importWorkerFrom m api total i rows).processed = 0 := by
  intro rows
  induction rows with
  | nil => intro i _; rfl
  | cons row rest ih =>
    intro i h
    rw [importWorkerFrom_cons]
    have hrow : (processProductImportUtils row m (api i)).success = false :=
      h (i, row) (by rw [List.enumFrom_cons]; exact List.mem_cons_self _ _)
    simp only [hrow, Bool.false_eq_true, if_false]
    exact ih (i + 1) (fun p hp => h p (by rw [List.enumFrom_cons]; exact List.mem_cons_of_mem _ hp))

/-- C1: every row of a batch is attempted exactly once on both the
synchronous path and the background worker — `processed + errors.length`
equals the batch size, and the error list is exactly the failed rows, in
input order, each formatted `Row <1-based index>: <reason>`; in async mode a
batch whose importer calls all fail still ends with `processed = 0`, a full
error list, and job status `completed`, never `failed`. -/
theorem claim_C1_batch_completeness (rows : List RawRow) (m : FieldMappings)
    (api : Nat → ProductData → CatalogResponse) (jobId : String) :
    (runRowsFrom m api 0 rows).1 + (runRowsFrom m api 0 rows).2.length = rows.length ∧
    (runRowsFrom m api 0 rows).2 = rows.enum.filterMap (fun p =>
        if (processProductImportRoute p.2 m (api p.1)).success then none
        else some (rowErrorEntry p.1 (processProductImportRoute p.2 m (api p.1)).error)) ∧
    (importWorkerRun rows m api).processed +
      (importWorkerRun rows m api).errors.length = rows.length ∧
    (importWorkerRun rows m api).errors = rows.enum.filterMap (fun p =>
        if (processProductImportUtils p.2 m (api p.1)).success then none
        else some (rowErrorEntry p.1 (processProductImportUtils p.2 m (api p.1)).error)) ∧
    ((∀ p ∈ rows.enum, (processProductImportUtils p.2 m (api p.1)).success = false) →
      (importWorkerResult rows m api).processed = 0 ∧
      (importWorkerResult rows m api).errors.length = rows.length ∧
      (statusBodyOfJob (jobSnapshot jobId rows m api rows.length)).status =
        JobStatus.completed ∧
      (statusBodyOfJob (jobSnapshot jobId rows m api rows.length)).status ≠
        JobStatus.failed) := by
  refine ⟨runRowsFrom_total m api rows 0, runRowsFrom_errors m api rows 0,
    importWorkerFrom_total m api rows.length rows 0,
    importWorkerFrom_errors m api rows.length rows 0, ?_⟩
  intro hfail
  have hp0 : (importWorkerRun rows m api).processed = 0 :=
    importWorkerFrom_allfail m api rows.length rows 0 hfail
  have htot : (importWorkerRun rows m api).processed +
      (importWorkerRun rows m api).errors.length = rows.length :=
    importWorkerFrom_total m api rows.length rows 0
  have hsnap : jobSnapshot jobId rows m api rows.length =
      { id := jobId, state := "completed"
        progress := jsRound100 rows.length rows.length
        returnvalue := some (importWorkerResult rows m api)
        dataTotal := rows.length
        failedReason := none } := by
    unfold jobSnapshot
    rw [if_neg (lt_irrefl rows.length)]
  refine ⟨hp0, ?_, ?_, ?_⟩
  · show (importWorkerRun rows m api).errors.length = rows.length
    omega
  · rw [hsnap]
    rfl
  · rw [hsnap]
    intro hcon
    exact JobStatus.noConfusion hcon

/-- Witness for C1: a two-row batch whose catalog calls both fail ends with
no successes, two errors, and a `completed` job. -/
theorem claim_C1_batch_completeness_witness :
    (importWorkerResult [[("Name", "A")], [("Name", "B")]] [("Name", "name")]
        (fun _ _ => CatalogResponse.failure none none)).processed = 0 ∧
    (importWorkerResult [[("Name", "A")], [("Name", "B")]] [("Name", "name")]
        (fun _ _ => CatalogResponse.failure none none)).errors.length = 2 ∧
    (statusBodyOfJob (jobSnapshot "j1" [[("Name", "A")], [("Name", "B")]]
        [("Name", "name")] (fun _ _ => CatalogResponse.failure none none) 2)).status =
      JobStatus.completed := by
  have h := (claim_C1_batch_completeness [[("Name", "A")], [("Name", "B")]]
    [("Name", "name")] (fun _ _ => CatalogResponse.failure none none) "j1").2.2.2.2
    (by decide)
  exact ⟨h.1, h.2.1, h.2.2.1⟩

/-- Helper for C2: on a request that passes input validation, `POST`
dispatches on the threshold and queue availability. -/
theorem postImport_valid (rows : List RawRow) (m : FieldMappings) (qa : Bool)
    (jobId : String) (api : Nat → ProductData → CatalogResponse)
    (hr : rows ≠ []) (hm : m ≠ []) :
    postImport true (some rows) m qa jobId api =
      (if rows.length > LARGE_IMPORT_THRESHOLD ∧ qa then
        PostResponse.jobQueued { id := jobId, status := JobStatus.pending, progress := 0
                                 total := rows.length, processed := 0, errors := [] }
      else PostResponse.syncDone (runRowsFrom m api 0 rows).1 rows.length
        (runRowsFrom m api 0 rows).2) := by
  unfold postImport
  have h1 : rows.isEmpty = false := by simp [List.isEmpty_iff, hr]
  have h2 : m.isEmpty = false := by simp [List.isEmpty_iff, hm]
  simp [h1, h2]

/-- C2 counterexample: a request with 51 rows and an available queue — but an
empty field mapping — is rejected with 400 before mode selection, so it does
not enqueue a background job as the claim, quantified over *every* import
request, demands. -/
theorem claim_C2_counterexample :
    postImport true (some (List.replicate 51 [("Name", "A")])) [] true "job-1"
        (fun _ _ => CatalogResponse.ok 1) =
      PostResponse.badRequest "Field mappings are required" ∧
    (∀ body, PostResponse.badRequest "Field mappings are required" ≠
      PostResponse.jobQueued body) := by
  refine ⟨rfl, ?_⟩
  intro body h
  exact PostResponse.noConfusion h

/-- C2 (amended): for every import request that passes input validation
(at least one row and a non-empty field mapping): more than 50 rows with the
job queue available enqueues a background job, returning a handle with
status `pending` and progress 0; at most 50 rows runs the batch
synchronously inline; and an unavailable queue forces the synchronous path
for any row count instead of losing the import. -/
theorem claim_C2_mode_selection (rows : List RawRow) (m : FieldMappings)
    (jobId : String) (api : Nat → ProductData → CatalogResponse)
    (hr : rows ≠ []) (hm : m ≠ []) :
    (rows.length > 50 →
      postImport true (some rows) m true jobId api =
        PostResponse.jobQueued { id := jobId, status := JobStatus.pending, progress := 0
                                 total := rows.length, processed := 0, errors := [] }) ∧
    (∀ qa : Bool, rows.length ≤ 50 →
      postImport true (some rows) m qa jobId api =
        PostResponse.syncDone (runRowsFrom m api 0 rows).1 rows.length
          (runRowsFrom m api 0 rows).2) ∧
    (postImport true (some rows) m false jobId api =
        PostResponse.syncDone (runRowsFrom m api 0 rows).1 rows.length
          (runRowsFrom m api 0 rows).2) := by
  refine ⟨?_, ?_, ?_⟩
  · intro h50
    rw [postImport_valid rows m true jobId api hr hm, if_pos ⟨h50, rfl⟩]
  · intro qa h50
    rw [postImport_valid rows m qa jobId api hr hm, if_neg]
    intro hcon
    have : rows.length > LARGE_IMPORT_THRESHOLD := hcon.1
    unfold LARGE_IMPORT_THRESHOLD at this
    omega
  · rw [postImport_valid rows m false jobId api hr hm, if_neg]
    intro hcon
    exact Bool.false_ne_true hcon.2

/-- Witness for C2 (amended): 51 valid rows with an available queue are
enqueued as a background job with status `pending` and progress 0. -/
theorem claim_C2_mode_selection_witness :
    postImport true (some (List.replicate 51 [("Name", "A")])) [("Name", "name")]
        true "job-1" (fun _ _ => CatalogResponse.ok 1) =
      PostResponse.jobQueued { id := "job-1", status := JobStatus.pending, progress := 0
                               total := 51, processed := 0, errors := [] } :=
  (claim_C2_mode_selection (List.replicate 51 [("Name", "A")]) [("Name", "name")]
    "job-1" (fun _ _ => CatalogResponse.ok 1) (by decide) (by decide)).1 (by decide)

/-- C7 counterexample: in a four-row async batch, after three rows have been
attempted (all successfully) the worker's internal success count is 3 and
progress is 75, yet a poll of the status endpoint reports `processed = 0` —
the endpoint reads `processed` from the job's return value, which exists only
after completion; only progress is pushed per row. -/
theorem claim_C7_counterexample :
    (workerPartial [[("N", "a")], [("N", "b")], [("N", "c")], [("N", "d")]]
        [("N", "name")] (fun _ _ => CatalogResponse.ok 1) 3).processed = 3 ∧
    getStatus true (some (fun _ => some (jobSnapshot "j1"
        [[("N", "a")], [("N", "b")], [("N", "c")], [("N", "d")]]
        [("N", "name")] (fun _ _ => CatalogResponse.ok 1) 3))) "j1" =
      StatusResponse.ok { id := "j1", status := JobStatus.processing, progress := 75
                          total := 4, processed := 0, errors := [], error := none } := by
  exact ⟨rfl, rfl⟩

/-- C7 (amended): in async mode the worker updates the job's progress after
each row to `round(100·(attempted/total))` (the full trace is
`[round(100·1/N), …, round(100·N/N)]`), but it does not publish the running
success count: while the job is still processing, a poller observes status
`processing`, the last written progress, and `processed = 0`; the true
processed count becomes observable only once the job completes. -/
theorem claim_C7_progress_observability (rows : List RawRow) (m : FieldMappings)
    (api : Nat → ProductData → CatalogResponse) (jobId : String) (k : Nat) :
    (importWorkerRun rows m api).trace =
      (List.range' 1 rows.length).map (fun j => jsRound100 j rows.length) ∧
    (k < rows.length →
      (statusBodyOfJob (jobSnapshot jobId rows m api k)).status = JobStatus.processing ∧
      (statusBodyOfJob (jobSnapshot jobId rows m api k)).processed = 0 ∧
      (statusBodyOfJob (jobSnapshot jobId rows m api k)).progress =
        (if k = 0 then 0 else jsRound100 k rows.length)) ∧
    ((statusBodyOfJob (jobSnapshot jobId rows m api rows.length)).processed =
      (importWorkerRun rows m api).processed) := by
  refine ⟨importWorkerRun_trace rows m api, ?_, ?_⟩
  · intro hk
    have hsnap : jobSnapshot jobId rows m api k =
        { id := jobId, state := "active"
          progress := if k = 0 then 0 else jsRound100 k rows.length
          returnvalue := none
          dataTotal := rows.length
          failedReason := none } := by
      unfold jobSnapshot
      rw [if_pos hk]
    rw [hsnap]
    exact ⟨rfl, rfl, rfl⟩
  · have hsnap : jobSnapshot jobId rows m api rows.length =
        { id := jobId, state := "completed"
          progress := jsRound100 rows.length rows.length
          returnvalue := some (importWorkerResult rows m api)
          dataTotal := rows.length
          failedReason := none } := by
      unfold jobSnapshot
      rw [if_neg (lt_irrefl rows.length)]
    rw [hsnap]
    rfl

/-- Witness for C7 (amended): mid-run polling of a concrete two-row batch
reports `processing` with `processed = 0`. -/
theorem claim_C7_progress_observability_witness :
    (statusBodyOfJob (jobSnapshot "j1" [[("N", "a")], [("N", "b")]] [("N", "name")]
        (fun _ _ => CatalogResponse.ok 1) 1)).status = JobStatus.processing ∧
    (statusBodyOfJob (jobSnapshot "j1" [[("N", "a")], [("N", "b")]] [("N", "name")]
        (fun _ _ => CatalogResponse.ok 1) 1)).processed = 0 := by
  have h := (claim_C7_progress_observability [[("N", "a")], [("N", "b")]]
    [("N", "name")] (fun _ _ => CatalogResponse.ok 1) "j1" 1).2.1 (by decide)
  exact ⟨h.1, h.2.1⟩

/-- C8 counterexample: with 200 rows, the progress update written after row
199 is `round(100·199/200) = round(99.5) = 100`, while the job is still in
the native `active` state — a poller observes progress 100 with status
`processing`, a non-terminal state, contradicting the claim that progress is
100 only in a terminal state. -/
theorem claim_C8_counterexample :
    jsRound100 199 200 = 100 ∧
    (statusBodyOfJob (jobSnapshot "j1" (List.replicate 200 [("N", "a")])
        [("N", "name")] (fun _ _ => CatalogResponse.ok 1) 199)).status =
      JobStatus.processing ∧
    (statusBodyOfJob (jobSnapshot "j1" (List.replicate 200 [("N", "a")])
        [("N", "name")] (fun _ _ => CatalogResponse.ok 1) 199)).progress = 100 := by
  have hsnap : jobSnapshot "j1" (List.replicate 200 [("N", "a")]) [("N", "name")]
      (fun _ _ => CatalogResponse.ok 1) 199 =
      { id := "j1", state := "active"
        progress := if 199 = 0 then 0 else jsRound100 199 200
        returnvalue := none, dataTotal := 200, failedReason := none } := by
    unfold jobSnapshot
    rw [List.length_replicate, if_pos (by omega)]
  refine ⟨rfl, ?_, ?_⟩
  · rw [hsnap]
    rfl
  · rw [hsnap]
    rfl

/-- C8 (amended): the async progress trace is non-decreasing and bounded by
100, and a completed job reports progress 100 — but progress can already
equal 100 while the job is still processing (for N ≥ 200 the update after
row N−1 rounds to 100), so reaching 100 does not imply a terminal state. -/
theorem claim_C8_progress_monotone (rows : List RawRow) (m : FieldMappings)
    (api : Nat → ProductData → CatalogResponse) (jobId : String) :
    List.Pairwise (· ≤ ·) (importWorkerRun rows m api).trace ∧
    (∀ x ∈ (importWorkerRun rows m api).trace, x ≤ 100) ∧
    (rows ≠ [] →
      (statusBodyOfJob (jobSnapshot jobId rows m api rows.length)).progress = 100 ∧
      (statusBodyOfJob (jobSnapshot jobId rows m api rows.length)).status =
        JobStatus.completed) := by
  refine ⟨?_, ?_, ?_⟩
  · rw [importWorkerRun_trace, List.pairwise_map]
    exact (List.pairwise_lt_range' 1 rows.length 1 (by omega)).imp
      (fun h => jsRound100_mono _ (Nat.le_of_lt h))
  · intro x hx
    rw [importWorkerRun_trace] at hx
    obtain ⟨j, hj, rfl⟩ := List.mem_map.mp hx
    obtain ⟨i, hi, rfl⟩ := List.mem_range'.mp hj
    exact jsRound100_le_100 rows.length (1 + 1 * i) (by omega) (by omega)
  · intro hne
    have hlen : 0 < rows.length := List.length_pos.mpr hne
    have hsnap : jobSnapshot jobId rows m api rows.length =
        { id := jobId, state := "completed"
          progress := jsRound100 rows.length rows.length
          returnvalue := some (importWorkerResult rows m api)
          dataTotal := rows.length
          failedReason := none } := by
      unfold jobSnapshot
      rw [if_neg (lt_irrefl rows.length)]
    rw [hsnap]
    exact ⟨jsRound100_total rows.length hlen, rfl⟩

/-- Witness for C8 (amended): a completed one-row batch reports progress 100
with status `completed`. -/
theorem claim_C8_progress_monotone_witness :
    (statusBodyOfJob (jobSnapshot "j1" [[("N", "a")]] [("N", "name")]
        (fun _ _ => CatalogResponse.ok 1) 1)).progress = 100 ∧
    (statusBodyOfJob (jobSnapshot "j1" [[("N", "a")]] [("N", "name")]
        (fun _ _ => CatalogResponse.ok 1) 1)).status = JobStatus.completed := by
  have h := (claim_C8_progress_monotone [[("N", "a")]] [("N", "name")]
    (fun _ _ => CatalogResponse.ok 1) "j1").2.2 (by decide)
  exact h

/-- Helper for C9: the endpoint's status is `failed` exactly when the native
state string is `failed`. -/
theorem statusOfState_eq_failed_iff (s : String) :
    statusOfState s = JobStatus.failed ↔ s = "failed" := by
  unfold statusOfState
  by_cases h1 : s = "completed"
  · subst h1
    simp
  · rw [if_neg h1]
    by_cases h2 : s = "failed"
    · subst h2
      simp
    · rw [if_neg h2]
      by_cases h3 : s = "active"
      · subst h3
        simp
      · rw [if_neg h3]
        simp [h2]

/-- C9: the status endpoint maps the native state `active` to `processing`,
`completed` to `completed`, `failed` to `failed`, and any other native state
to `pending`; the top-level `error` field is present exactly when the status
is `failed`; an unknown job id yields the 404 `Job not found` response;
an unavailable queue yields the distinct 503 `Job queue not available`
response, never conflated with not-found. -/
theorem claim_C9_status_endpoint :
    statusOfState "active" = JobStatus.processing ∧
    statusOfState "completed" = JobStatus.completed ∧
    statusOfState "failed" = JobStatus.failed ∧
    (∀ s : String, s ≠ "active" → s ≠ "completed" → s ≠ "failed" →
      statusOfState s = JobStatus.pending) ∧
    (∀ job : BullJob,
      (statusBodyOfJob job).error ≠ none ↔
        (statusBodyOfJob job).status = JobStatus.failed) ∧
    (∀ getJob : String → Option BullJob, ∀ id : String, getJob id = none →
      getStatus true (some getJob) id = StatusResponse.jobUnknown "Job not found") ∧
    (∀ id : String, getStatus true none id =
      StatusResponse.unavailable "Job queue not available") ∧
    (∀ m1 m2 : String, StatusResponse.unavailable m1 ≠ StatusResponse.jobUnknown m2) := by
  refine ⟨rfl, rfl, rfl, ?_, ?_, ?_, ?_, ?_⟩
  · intro s h1 h2 h3
    unfold statusOfState
    rw [if_neg h2, if_neg h3, if_neg h1]
  · intro job
    show (if job.state = "failed" then some (jsOrStr job.failedReason "Job failed")
      else none) ≠ none ↔ statusOfState job.state = JobStatus.failed
    rw [statusOfState_eq_failed_iff]
    by_cases hf : job.state = "failed"
    · simp [hf]
    · simp [hf]
  · intro getJob id h
    unfold getStatus
    simp [h]
  · intro id
    rfl
  · intro m1 m2 h
    exact StatusResponse.noConfusion h

/-- Witness for C9: a queued (`waiting`) job is reported `pending`, and an
unknown id is reported `Job not found`. -/
theorem claim_C9_status_endpoint_witness :
    statusOfState "waiting" = JobStatus.pending ∧
    getStatus true (some (fun _ => none)) "nope" =
      StatusResponse.jobUnknown "Job not found" := by
  refine ⟨?_, ?_⟩
  · exact (claim_C9_status_endpoint).2.2.2.1 "waiting" (by decide) (by decide) (by decide)
  · exact (claim_C9_status_endpoint).2.2.2.2.2.1 (fun _ => none) "nope" rfl
